import Mathlib

/-!
# Verification of the informant-go storage subsystem

Shallow embedding of `src/internal/storage/storage.go` (the repository
contains two revisions of this file; where they differ, definitions carry
a `V1` / `V2` suffix, `V1` being the first revision in the file and `V2`
the refactored second revision, which is the one the public operations
`MarkAsRead`/`MarkAsUnread`/`Cleanup` of that revision call).

Go values are modelled as follows:
* `time.Time` / `time.Duration` are abstract integer tick counts;
* a Go `map[string]time.Time` is an `Option` of an association list, with
  `none` modelling a nil map (the result of unmarshalling JSON `null`);
* the filesystem is a finite map from paths to file entries plus a set of
  existing directories, per-path capability sets driving the probe
  functions, and an operation log recording writes/renames/removals;
* fallible syscalls take explicit fault flags modelling injected I/O
  failures; JSON (un)marshalling is modelled structurally on a
  `FileContent` type that distinguishes the two persisted record shapes
  from unparseable text.
-/

namespace Informant

/-- Go `time.Time` modelled as an abstract integer tick count. -/
abbrev Time := Int

/-- Go `time.Duration` modelled as an integer number of ticks. -/
abbrev Duration := Int

/-! ## Association lists with Go-map semantics -/

/-- Lookup in an association list (Go map indexing, first match). -/
def alistGet {α : Type} : List (String × α) → String → Option α
  | [], _ => none
  | (k, v) :: rest, key => if k = key then some v else alistGet rest key

/-- Go map assignment `m[key] = val`: replace the existing entry or append. -/
def alistSet {α : Type} : List (String × α) → String → α → List (String × α)
  | [], key, val => [(key, val)]
  | (k, v) :: rest, key, val =>
      if k = key then (k, val) :: rest else (k, v) :: alistSet rest key val

/-- Go map deletion `delete(m, key)`: drop every entry with that key. -/
def alistRemove {α : Type} : List (String × α) → String → List (String × α)
  | [], _ => []
  | (k, v) :: rest, key =>
      if k = key then alistRemove rest key else (k, v) :: alistRemove rest key

/-- The read-items map entries: item identifier to read timestamp. -/
abbrev Entries := List (String × Time)

/-- The keys of an association list are pairwise distinct (always true of a
list obtained from a Go map, whose keys are unique). -/
def keysNodup (l : Entries) : Prop := (l.map Prod.fst).Nodup

instance (l : Entries) : Decidable (keysNodup l) := by
  unfold keysNodup; infer_instance

/-- A Go `map[string]time.Time` value: `none` models a nil map. -/
abbrev GoMap := Option Entries

/-- Indexing a possibly-nil Go map (`m[key]`): reading a nil map yields the
zero value / not-present, it does not panic. -/
def goMapGet (m : GoMap) (key : String) : Option Time :=
  match m with
  | none => none
  | some l => alistGet l key

/-- `delete` on a possibly-nil Go map: deleting from a nil map is a no-op. -/
def goMapDelete (m : GoMap) (key : String) : GoMap :=
  match m with
  | none => none
  | some l => some (alistRemove l key)

/-! ## Data model (`ReadStatus`, `CacheEntry`, `Storage`) -/

/-- `ReadStatus` from storage.go: the persisted read-status record. -/
structure ReadStatus where
  readItems : GoMap
  lastCheck : Time
deriving DecidableEq, Repr

/-- `CacheEntry` from storage.go: one cached RSS feed. -/
structure CacheEntry where
  data : List Nat
  timestamp : Time
  url : String
deriving DecidableEq, Repr

/-- `Storage` from storage.go (the mutex only serializes in-process access
and has no observable effect in this sequential model). -/
structure Storage where
  filePath : String
  status : ReadStatus
  isSystemWide : Bool
  cacheDir : String
deriving DecidableEq, Repr

/-! ## Filesystem model -/

/-- The structural content of a file, modelling what `encoding/json` can
read back out of it: a serialized `ReadStatus` (whose `read_items` field
may be JSON `null`, modelled by `none`), a serialized `CacheEntry`, or
unparseable raw text. -/
inductive FileContent
  | statusJson (readItems : GoMap) (lastCheck : Time)
  | cacheJson (data : List Nat) (timestamp : Time) (url : String)
  | raw (text : String)
deriving DecidableEq, Repr

/-- A regular file: content plus permission bits (in decimal: 420 = 0644,
438 = 0666). -/
structure FileEntry where
  content : FileContent
  perm : Nat
deriving DecidableEq, Repr

/-- Mutating filesystem operations, logged in order of execution. -/
inductive FsOp
  | write (path : String)
  | rename (src dst : String)
  | remove (path : String)
  | mkdir (path : String)
deriving DecidableEq, Repr

/-- Filesystem state. `writableDirs` / `writableFiles` are the capability
sets consulted by the write-access probes (a marker-file write-then-delete
in a directory succeeds iff the directory is in `writableDirs`; opening an
existing file `O_WRONLY` succeeds iff it is in `writableFiles`);
`statErrors` are paths on which `os.Stat` fails with a non-`IsNotExist`
error; `dirPerms` holds the permission bits of existing directories.
`log` records every mutating operation performed. -/
structure FS where
  files : List (String × FileEntry)
  dirs : List String
  dirPerms : List (String × Nat)
  writableDirs : List String
  writableFiles : List String
  statErrors : List String
  log : List FsOp
deriving DecidableEq, Repr

/-- Lookup of a regular file. -/
def FS.getFile (fs : FS) (p : String) : Option FileEntry :=
  alistGet fs.files p

/-- Outcome of `os.Stat`. -/
inductive StatRes
  | file
  | dir
  | notExist
  | err
deriving DecidableEq, Repr

/-- `os.Stat` on a path. -/
def FS.statOf (fs : FS) (p : String) : StatRes :=
  if fs.statErrors.contains p then .err
  else if (fs.getFile p).isSome then .file
  else if fs.dirs.contains p then .dir
  else .notExist

/-- Error classification of `os.ReadFile`, as tested by `os.IsNotExist`. -/
inductive ReadErr
  | notExist
  | other
deriving DecidableEq, Repr

/-- `os.ReadFile`. -/
def osReadFile (fs : FS) (p : String) : Except ReadErr FileContent :=
  match fs.statOf p with
  | .file =>
      match fs.getFile p with
      | some e => .ok e.content
      | none => .error .other
  | .notExist => .error .notExist
  | _ => .error .other

/-- `os.WriteFile` with an injected-fault flag. The permission argument is
only applied when the file is created; overwriting keeps the old bits. -/
def osWriteFile (fs : FS) (p : String) (c : FileContent) (perm : Nat) (ok : Bool) :
    Except Unit FS :=
  if ok then
    let entry : FileEntry :=
      match fs.getFile p with
      | some old => { content := c, perm := old.perm }
      | none => { content := c, perm := perm }
    .ok { fs with files := alistSet fs.files p entry, log := fs.log ++ [.write p] }
  else .error ()

/-- `os.Remove` (the code ignores its result). -/
def osRemove (fs : FS) (p : String) : FS :=
  { fs with files := alistRemove fs.files p, log := fs.log ++ [.remove p] }

/-- `os.Rename` with an injected-fault flag. -/
def osRename (fs : FS) (src dst : String) (ok : Bool) : Except Unit FS :=
  if ok then
    match fs.getFile src with
    | none => .error ()
    | some e =>
        .ok { fs with files := alistSet (alistRemove fs.files src) dst e,
                      log := fs.log ++ [.rename src dst] }
  else .error ()

/-- `os.MkdirAll` with an injected-fault flag: succeeds without change on
an existing directory; on creation the directory gets the requested
permission bits. -/
def osMkdirAll (fs : FS) (d : String) (perm : Nat) (ok : Bool) : Except Unit FS :=
  if fs.dirs.contains d then .ok fs
  else if ok then
    .ok { fs with dirs := d :: fs.dirs, dirPerms := alistSet fs.dirPerms d perm,
                  log := fs.log ++ [.mkdir d] }
  else .error ()

/-- `os.Chmod` on a directory with an injected-fault flag. -/
def osChmodDir (fs : FS) (d : String) (perm : Nat) (ok : Bool) : Except Unit FS :=
  if ok then
    if fs.dirs.contains d then
      .ok { fs with dirPerms := alistSet fs.dirPerms d perm }
    else .error ()
  else .error ()

/-- `os.Chmod` on a regular file with an injected-fault flag. -/
def osChmod (fs : FS) (p : String) (perm : Nat) (ok : Bool) : Except Unit FS :=
  if ok then
    match fs.getFile p with
    | none => .error ()
    | some e => .ok { fs with files := alistSet fs.files p { e with perm := perm } }
  else .error ()

/-- Split a character list at every slash (structural recursion, so that
concrete paths evaluate inside the kernel). -/
def splitOnSlash : List Char → List (List Char)
  | [] => [[]]
  | x :: xs =>
      match splitOnSlash xs with
      | [] => [[]]
      | y :: ys => if x = '/' then [] :: y :: ys else (x :: y) :: ys

/-- Join path components with slashes. -/
def joinWithSlash : List String → String
  | [] => ""
  | [x] => x
  | x :: y :: ys => x ++ "/" ++ joinWithSlash (y :: ys)

/-- Go `filepath.Dir` for the slash-separated paths the code builds. -/
def filepathDir (p : String) : String :=
  let parts := (splitOnSlash p.toList).map fun l => String.mk l
  if parts.length ≤ 1 then "."
  else
    let front := parts.dropLast
    if front.all (fun q => q = "") then "/"
    else joinWithSlash front

/-- Go `filepath.Join` for the two-component joins the code performs. -/
def filepathJoin (dir name : String) : String := dir ++ "/" ++ name

/-- Injected I/O fault flags for one storage operation. -/
structure Faults where
  mkdirOk : Bool
  writeOk : Bool
  renameOk : Bool
  chmodOk : Bool
deriving DecidableEq, Repr

/-- No injected faults: every syscall succeeds. -/
def noFaults : Faults := ⟨true, true, true, true⟩

/-! ## JSON (un)marshalling of the persisted records -/

/-- `json.MarshalIndent` of a `ReadStatus` (a nil map marshals as JSON
`null`); marshalling cannot fail for this type. -/
def marshalStatus (st : ReadStatus) : FileContent :=
  .statusJson st.readItems st.lastCheck

/-- Merging a JSON object's entries into an existing Go map, as
`json.Unmarshal` does: existing entries are kept, entries from the file
are assigned in order (later duplicate keys win). -/
def mergeEntries (existing : Entries) (fileItems : Entries) : Entries :=
  fileItems.foldl (fun acc kv => alistSet acc kv.1 kv.2) existing

/-- `json.Unmarshal(data, s.status)`: unmarshalling into an existing
`ReadStatus`. A JSON `null` for `read_items` sets the map to nil; an
object is merged into the existing map (allocating when it is nil); a
serialized `CacheEntry` is a valid JSON object with no matching fields, so
it unmarshals successfully leaving the record unchanged; raw text is a
syntax error. -/
def unmarshalStatusInto (st : ReadStatus) (c : FileContent) : Option ReadStatus :=
  match c with
  | .statusJson fileItems lc =>
      let items : GoMap :=
        match fileItems with
        | none => none
        | some l =>
            match st.readItems with
            | none => some (mergeEntries [] l)
            | some e => some (mergeEntries e l)
      some { readItems := items, lastCheck := lc }
  | .cacheJson _ _ _ => some st
  | .raw _ => none

/-- `json.Unmarshal(data, &entry)` into a `CacheEntry`: a serialized
`ReadStatus` is a valid JSON object whose fields are all ignored, so the
entry keeps its zero values; raw text is a syntax error. -/
def unmarshalCache (c : FileContent) : Option CacheEntry :=
  match c with
  | .cacheJson d t u => some ⟨d, t, u⟩
  | .statusJson _ _ => some ⟨[], 0, ""⟩
  | .raw _ => none

/-! ## Persistence: the two `save` variants, `load` -/

/-- Errors a save can return. -/
inductive SaveErr
  | mkdirFailed
  | writeFailed
  | renameFailed
  | chmodFailed
deriving DecidableEq, Repr

/-- First revision of `Storage.save` (storage.go lines 326-366): ensure
the directory exists, update `lastCheck`, marshal, write to
`filePath + ".tmp"`, rename the temporary file over the target (removing
it if the rename fails), and finally chmod the file to 0666 when the
storage is system-wide. -/
def saveV1 (s : Storage) (now : Time) (fs : FS) (f : Faults) :
    Storage × FS × Option SaveErr :=
  let dir := filepathDir s.filePath
  match osMkdirAll fs dir 493 f.mkdirOk with
  | .error _ => (s, fs, some .mkdirFailed)
  | .ok fs₁ =>
      let s₁ : Storage := { s with status := { s.status with lastCheck := now } }
      let data := marshalStatus s₁.status
      let tempFile := s.filePath ++ ".tmp"
      let perm : Nat := if s.isSystemWide then 438 else 420
      match osWriteFile fs₁ tempFile data perm f.writeOk with
      | .error _ => (s₁, fs₁, some .writeFailed)
      | .ok fs₂ =>
          match osRename fs₂ tempFile s.filePath f.renameOk with
          | .error _ => (s₁, osRemove fs₂ tempFile, some .renameFailed)
          | .ok fs₃ =>
              if s.isSystemWide then
                match osChmod fs₃ s.filePath 438 f.chmodOk with
                | .error _ => (s₁, fs₃, some .chmodFailed)
                | .ok fs₄ => (s₁, fs₄, none)
              else (s₁, fs₃, none)

/-- Second revision of `Storage.save` (storage.go lines 733-773): create
the directory only if `os.Stat` reports it missing, update `lastCheck`,
marshal, then write directly to the file path in place; afterwards, if the
storage is system-wide and the process is root, chmod the file to 0666
unless a successful stat shows it already has those bits. -/
def saveV2 (s : Storage) (now : Time) (isRoot : Bool) (fs : FS) (f : Faults) :
    Storage × FS × Option SaveErr :=
  let dir := filepathDir s.filePath
  match (if fs.statOf dir = StatRes.notExist then osMkdirAll fs dir 493 f.mkdirOk
         else Except.ok fs) with
  | .error _ => (s, fs, some .mkdirFailed)
  | .ok fs₁ =>
      let s₁ : Storage := { s with status := { s.status with lastCheck := now } }
      let data := marshalStatus s₁.status
      let perm : Nat := if s.isSystemWide then 438 else 420
      match osWriteFile fs₁ s.filePath data perm f.writeOk with
      | .error _ => (s₁, fs₁, some .writeFailed)
      | .ok fs₂ =>
          if s.isSystemWide && isRoot then
            match fs₂.getFile s.filePath with
            | some e =>
                if e.perm ≠ 438 then
                  match osChmod fs₂ s.filePath 438 f.chmodOk with
                  | .error _ => (s₁, fs₂, some .chmodFailed)
                  | .ok fs₃ => (s₁, fs₃, none)
                else (s₁, fs₂, none)
            | none => (s₁, fs₂, none)
          else (s₁, fs₂, none)

/-- Errors `load` can return. -/
inductive LoadErr
  | readFailed (e : ReadErr)
  | parseFailed
deriving DecidableEq, Repr

/-- `Storage.load`: read the whole status file and unmarshal it into the
current record. -/
def load (s : Storage) (fs : FS) : Except LoadErr Storage :=
  match osReadFile fs s.filePath with
  | .error e => .error (.readFailed e)
  | .ok c =>
      match unmarshalStatusInto s.status c with
      | none => .error .parseFailed
      | some st => .ok { s with status := st }

/-! ## Public read-status operations (second revision's methods) -/

/-- Result of an operation that contains a Go map assignment: assigning
into a nil map is a runtime panic. -/
inductive OpResult (α : Type)
  | panicNilMap
  | ok (val : α)
deriving DecidableEq, Repr

/-- `Storage.IsRead`. -/
def IsRead (s : Storage) (itemID : String) : Bool :=
  (goMapGet s.status.readItems itemID).isSome

/-- `Storage.GetReadTime`. -/
def GetReadTime (s : Storage) (itemID : String) : Option Time :=
  goMapGet s.status.readItems itemID

/-- `Storage.MarkAsRead`: assign `itemID -> now` into the read-items map
(a panic if the map is nil) and save. -/
def MarkAsRead (s : Storage) (itemID : String) (now : Time) (isRoot : Bool)
    (fs : FS) (f : Faults) : OpResult (Storage × FS × Option SaveErr) :=
  match s.status.readItems with
  | none => .panicNilMap
  | some items =>
      let s₁ : Storage :=
        { s with status := { s.status with readItems := some (alistSet items itemID now) } }
      .ok (saveV2 s₁ now isRoot fs f)

/-- `Storage.MarkAsUnread`: delete `itemID` from the read-items map (a
no-op when absent or nil) and save. -/
def MarkAsUnread (s : Storage) (itemID : String) (now : Time) (isRoot : Bool)
    (fs : FS) (f : Faults) : Storage × FS × Option SaveErr :=
  let s₁ : Storage :=
    { s with status := { s.status with readItems := goMapDelete s.status.readItems itemID } }
  saveV2 s₁ now isRoot fs f

/-- The deletion loop of `Storage.Cleanup`: ranging over the map and
deleting every entry whose read time is `Before` the cutoff is removal of
exactly those entries. -/
def goMapCleanup (m : GoMap) (cutoff : Time) : GoMap :=
  match m with
  | none => none
  | some l => some (l.filter (fun kv => ! decide (kv.2 < cutoff)))

/-- `Storage.Cleanup`: compute `cutoff = now - maxAge`, delete every entry
read before the cutoff, then save once. -/
def Cleanup (s : Storage) (maxAge : Duration) (now : Time) (isRoot : Bool)
    (fs : FS) (f : Faults) : Storage × FS × Option SaveErr :=
  let cutoff := now - maxAge
  let s₁ : Storage :=
    { s with status := { s.status with readItems := goMapCleanup s.status.readItems cutoff } }
  saveV2 s₁ now isRoot fs f

/-! ## Storage locator (second revision) -/

/-- The fixed system-wide status file path. -/
def systemFilePath : String := "/var/lib/informant-go.dat"

/-- The fixed system-wide cache directory. -/
def systemCacheDir : String := "/var/cache/informant"

/-- `canWriteToDirectory`: `os.Stat` the directory (failure or a
non-directory means unwritable), then attempt a marker-file
write-then-delete in it; the net effect on the filesystem is nil, so the
probe is modelled as a pure capability check. -/
def canWriteToDirectory (fs : FS) (dir : String) : Bool :=
  match fs.statOf dir with
  | .dir => fs.writableDirs.contains dir
  | _ => false

/-- `canWriteToFile` (second revision): stat the file; if it does not
exist, probe the containing directory instead; on any other stat error,
unwritable; if it exists, try to open it `O_WRONLY` (without truncation)
and close it — opening a directory that way always fails. -/
def canWriteToFile (fs : FS) (filePath : String) : Bool :=
  match fs.statOf filePath with
  | .notExist => canWriteToDirectory fs (filepathDir filePath)
  | .file => fs.writableFiles.contains filePath
  | .dir => false
  | .err => false

/-- `canUseSystemStorage` (second revision): both probes must succeed. -/
def canUseSystemStorage (fs : FS) (filePath cacheDir : String) : Bool :=
  canWriteToFile fs filePath && canWriteToDirectory fs cacheDir

/-- How the spec describes the status-file probe, stated for comparison
with `canWriteToFile`: check existence first; if the file is absent, probe
the containing directory's writability by a marker-file write-then-delete;
if it exists, attempt to open it for writing without truncation and close
it. -/
def specStatusFileProbe (fs : FS) (p : String) : Bool :=
  if fs.statOf p = StatRes.notExist then canWriteToDirectory fs (filepathDir p)
  else (fs.statOf p = StatRes.file) && fs.writableFiles.contains p

/-- ASCII whitespace, as trimmed by Go `strings.TrimSpace` on the inputs
that matter here. -/
def isSpaceChar (c : Char) : Bool :=
  c = ' ' || c = '\t' || c = '\n' || c = '\r'

/-- Go `strings.TrimSpace` followed by `strings.ToLower`, applied to the
line read from standard input. -/
def goTrimLower (s : String) : String :=
  String.mk
    (((s.toList.dropWhile isSpaceChar).reverse.dropWhile isSpaceChar).reverse.map
      Char.toLower)

/-- `confirmFallback`: print the fallback warning and the prompt, read one
line from standard input (`none` models a read error, which counts as a
decline), and accept exactly a trimmed, lowercased `y` or `yes`. -/
def confirmFallback (stdinLine : Option String) : Bool :=
  match stdinLine with
  | none => false
  | some line =>
      let response := goTrimLower line
      response = "y" || response = "yes"

/-- `createSystemDirectories` (second revision, root only): create both
system directories with 0755; then, when a stat of the cache directory
succeeds and its permission bits are not already 0777 (511), chmod it to
0777 — a chmod failure aborts initialization; a failed stat silently
skips the chmod (the code only enters the branch when `err == nil`). -/
def createSystemDirectories (fs : FS) (filePath cacheDir : String) (f : Faults) :
    Except Unit FS :=
  match osMkdirAll fs (filepathDir filePath) 493 f.mkdirOk with
  | .error _ => .error ()
  | .ok fs₁ =>
      match osMkdirAll fs₁ cacheDir 493 f.mkdirOk with
      | .error _ => .error ()
      | .ok fs₂ =>
          match fs₂.statOf cacheDir with
          | .dir =>
              if (alistGet fs₂.dirPerms cacheDir).getD 0 ≠ 511 then
                match osChmodDir fs₂ cacheDir 511 f.chmodOk with
                | .error _ => .error ()
                | .ok fs₃ => .ok fs₃
              else .ok fs₂
          | .file =>
              match fs₂.getFile cacheDir with
              | some e =>
                  if e.perm ≠ 511 then
                    match osChmod fs₂ cacheDir 511 f.chmodOk with
                    | .error _ => .error ()
                    | .ok fs₃ => .ok fs₃
                  else .ok fs₂
              | none => .ok fs₂
          | _ => .ok fs₂

/-- Ambient process environment of `NewWithConfirmation`:
`viper.ConfigFileUsed()` (empty string when no config file is in use),
`os.UserHomeDir()` (`none` models its error), and
`os.Getenv("XDG_CONFIG_HOME")` (empty string when unset) are ambient
library/system state consumed by `config.GetConfigPath`. -/
structure Env where
  isRoot : Bool
  stdinLine : Option String
  configFileUsed : String
  userHomeDir : Option String
  xdgConfigHome : String
  now : Time
deriving DecidableEq, Repr

/-- `config.GetConfigPath` (config package embedded in
src/internal/feed/parser.go): prefer the directory of the viper config
file in use; otherwise resolve the home directory (propagating its
failure), prefer a non-empty `XDG_CONFIG_HOME`, and fall back to
`home/.config` when a stat does not report it missing, else to the home
directory itself. -/
def getConfigPath (env : Env) (fs : FS) : Except Unit String :=
  if env.configFileUsed ≠ "" then .ok (filepathDir env.configFileUsed)
  else
    match env.userHomeDir with
    | none => .error ()
    | some home =>
        if env.xdgConfigHome ≠ "" then .ok env.xdgConfigHome
        else
          let configDir := filepathJoin home ".config"
          if fs.statOf configDir = StatRes.notExist then .ok home
          else .ok configDir

/-- `getUserStoragePaths`: resolve the user configuration directory via
`config.GetConfigPath`, derive the status-file path and the cache
directory from it, and create the cache directory. -/
def getUserStoragePaths (env : Env) (fs : FS) (f : Faults) :
    Except Unit (String × String × FS) :=
  match getConfigPath env fs with
  | .error _ => .error ()
  | .ok cp =>
      let filePath := filepathJoin cp ".informant_read_status.json"
      let cacheDir := filepathJoin cp ".informant_cache"
      match osMkdirAll fs cacheDir 493 f.mkdirOk with
      | .error _ => .error ()
      | .ok fs₁ => .ok (filePath, cacheDir, fs₁)

/-- Console output events of the locator. -/
inductive OutEvent
  | fallbackWarning
  | confirmPrompt
deriving DecidableEq, Repr

/-- Errors of `NewWithConfirmation`. -/
inductive InitErr
  | systemDirFailed
  | userDeclined
  | userPathsFailed
  | loadFailed
deriving DecidableEq, Repr

/-- Result of `NewWithConfirmation`: the storage handle, the resulting
filesystem, and the console output produced. -/
inductive NewResult
  | ok (s : Storage) (fs : FS) (out : List OutEvent)
  | err (e : InitErr) (fs : FS) (out : List OutEvent)
deriving DecidableEq, Repr

/-- The tail of `NewWithConfirmation`: build the `Storage` value with a
freshly made empty read-items map and `lastCheck = now`, then `load` any
existing data — a missing file is fine, any other load failure is fatal. -/
def loadStore (filePath cacheDir : String) (isSystemWide : Bool) (now : Time)
    (fs : FS) : Except InitErr Storage :=
  let storage : Storage :=
    { filePath := filePath, cacheDir := cacheDir, isSystemWide := isSystemWide,
      status := { readItems := some [], lastCheck := now } }
  match load storage fs with
  | .ok s => .ok s
  | .error (.readFailed .notExist) => .ok storage
  | .error _ => .error .loadFailed

/-- Wrap `loadStore` into a `NewResult`. -/
def finishNew (filePath cacheDir : String) (isSystemWide : Bool) (env : Env)
    (fs : FS) (out : List OutEvent) : NewResult :=
  match loadStore filePath cacheDir isSystemWide env.now fs with
  | .ok s => .ok s fs out
  | .error e => .err e fs out

/-- `NewWithConfirmation` (second revision): root creates the system
directories and uses them; otherwise the system paths are probed, and on
probe failure the locator either prompts for confirmation (interactive)
or prints the warning and proceeds (non-interactive) before computing the
per-user paths; finally the store is constructed and loaded. -/
def newWithConfirmation (requireConfirmation : Bool) (env : Env) (fs : FS)
    (f : Faults) : NewResult :=
  if env.isRoot then
    match createSystemDirectories fs systemFilePath systemCacheDir f with
    | .error _ => .err .systemDirFailed fs []
    | .ok fs₁ => finishNew systemFilePath systemCacheDir true env fs₁ []
  else
    if canUseSystemStorage fs systemFilePath systemCacheDir then
      finishNew systemFilePath systemCacheDir true env fs []
    else
      if requireConfirmation then
        if confirmFallback env.stdinLine then
          match getUserStoragePaths env fs f with
          | .error _ => .err .userPathsFailed fs [.fallbackWarning, .confirmPrompt]
          | .ok (fp, cd, fs₁) =>
              finishNew fp cd false env fs₁ [.fallbackWarning, .confirmPrompt]
        else .err .userDeclined fs [.fallbackWarning, .confirmPrompt]
      else
        match getUserStoragePaths env fs f with
        | .error _ => .err .userPathsFailed fs [.fallbackWarning]
        | .ok (fp, cd, fs₁) => finishNew fp cd false env fs₁ [.fallbackWarning]

/-! ## Feed cache -/

/-- Models crypto/md5 (an external library primitive): the hex digest is
modelled by a deterministic FNV-1a-style stand-in; no claim depends on the
digest values, only on the path being a fixed function of the URL. -/
def md5Hex (s : String) : String :=
  let h := s.toList.foldl
    (fun h c => ((h ^^^ c.toNat) * 1099511628211) % 2 ^ 64) 14695981039346656037
  (Nat.toDigits 16 h).asString

/-- `Storage.getCacheFilePath`: the cache directory joined with the hex
digest of the URL plus `.json`. -/
def getCacheFilePath (s : Storage) (url : String) : String :=
  filepathJoin s.cacheDir (md5Hex url ++ ".json")

/-- `Storage.GetCacheFile`: read the fingerprint-derived file, unmarshal a
`CacheEntry`, and reject it when `time.Since(entry.Timestamp) > maxAge`;
every failure degrades to not-found (`none`) — the Go signature
`([]byte, bool)` has no error component at all. -/
def GetCacheFile (s : Storage) (fs : FS) (now : Time) (url : String)
    (maxAge : Duration) : Option (List Nat) :=
  let cacheFile := getCacheFilePath s url
  match osReadFile fs cacheFile with
  | .error _ => none
  | .ok c =>
      match unmarshalCache c with
      | none => none
      | some entry =>
          if now - entry.timestamp > maxAge then none else some entry.data

/-! ## Concrete fixtures used by witnesses and counterexamples -/

/-- A system-wide storage handle with two items marked read. -/
def demoStore : Storage :=
  { filePath := systemFilePath, cacheDir := systemCacheDir, isSystemWide := true,
    status := { readItems := some [("item-a", 1), ("item-b", 5)], lastCheck := 0 } }

/-- A filesystem where the system directories exist and the status file is
absent. -/
def demoFS : FS :=
  { files := [], dirs := ["/var/lib", "/var/cache/informant"],
    dirPerms := [("/var/lib", 493), ("/var/cache/informant", 511)],
    writableDirs := ["/var/lib", "/var/cache/informant"], writableFiles := [],
    statErrors := [], log := [] }

/-- A per-user storage handle with two items marked read. -/
def userStore : Storage :=
  { filePath := "/home/u/.informant_read_status.json",
    cacheDir := "/home/u/.informant_cache", isSystemWide := false,
    status := { readItems := some [("item-a", 1), ("item-b", 5)], lastCheck := 0 } }

/-- A filesystem for the per-user handle: home and cache directories
exist and are writable, no status file yet. -/
def userFS : FS :=
  { files := [], dirs := ["/home/u", "/home/u/.informant_cache"],
    dirPerms := [("/home/u", 493), ("/home/u/.informant_cache", 493)],
    writableDirs := ["/home/u", "/home/u/.informant_cache"], writableFiles := [],
    statErrors := [], log := [] }

/-- A filesystem holding a status file whose `read_items` field is JSON
`null`. -/
def nullStatusFS : FS :=
  { files := [("/home/u/.informant_read_status.json",
      { content := .statusJson none 5, perm := 420 })],
    dirs := ["/home/u"], dirPerms := [("/home/u", 493)], writableDirs := [],
    writableFiles := [], statErrors := [], log := [] }

/-- The store produced from `nullStatusFS`: loading set the read-items
map to nil. -/
def nullLoadedStore : Storage :=
  { filePath := "/home/u/.informant_read_status.json",
    cacheDir := "/home/u/.informant_cache", isSystemWide := false,
    status := { readItems := none, lastCheck := 5 } }

/-- A per-user store holding entries around a cleanup cutoff. -/
def cleanupStore : Storage :=
  { filePath := "/home/u/.informant_read_status.json",
    cacheDir := "/home/u/.informant_cache", isSystemWide := false,
    status := { readItems := some [("old", 0), ("edge", 3), ("new", 9)],
                lastCheck := 0 } }

/-- The store a fresh non-interactive construction produces on `userFS`. -/
def freshUserStore : Storage :=
  { filePath := "/home/u/.informant_read_status.json",
    cacheDir := "/home/u/.informant_cache", isSystemWide := false,
    status := { readItems := some [], lastCheck := 0 } }

/-- An environment for a non-root process whose user declines the prompt:
no viper config file in use, home directory `/home/u`, no XDG override. -/
def demoEnv : Env :=
  { isRoot := false, stdinLine := some "n\n", configFileUsed := "",
    userHomeDir := some "/home/u", xdgConfigHome := "", now := 0 }

/-- Faults where only the rename is made to fail. -/
def renameFault : Faults := ⟨true, true, false, true⟩

/-- Faults where only the write is made to fail. -/
def writeFault : Faults := ⟨true, false, true, true⟩

/-! ## Association-list lemmas -/

theorem alistGet_set {α : Type} (l : List (String × α)) (k : String) (v : α)
    (k' : String) :
    alistGet (alistSet l k v) k' = if k = k' then some v else alistGet l k' := by
  induction l with
  | nil => simp [alistGet, alistSet]
  | cons hd tl ih =>
      obtain ⟨a, b⟩ := hd
      by_cases hak : a = k
      · subst hak
        by_cases hk' : a = k' <;> simp [alistSet, alistGet, hk']
      · by_cases hk' : a = k'
        · subst hk'
          have hka : ¬ k = a := fun h => hak h.symm
          simp [alistSet, alistGet, hak, hka]
        · simp [alistSet, alistGet, hak, hk', ih]

theorem alistGet_remove {α : Type} (l : List (String × α)) (k k' : String) :
    alistGet (alistRemove l k) k' = if k = k' then none else alistGet l k' := by
  induction l with
  | nil => simp [alistGet, alistRemove]
  | cons hd tl ih =>
      obtain ⟨a, b⟩ := hd
      by_cases hak : a = k
      · subst hak
        by_cases hk' : a = k'
        · subst hk'
          simp [alistRemove, alistGet, ih]
        · simp [alistRemove, alistGet, hk', ih]
      · by_cases hk' : a = k'
        · subst hk'
          have hka : ¬ k = a := fun h => hak h.symm
          simp [alistRemove, alistGet, hak, hka, ih]
        · simp [alistRemove, alistGet, hak, hk', ih]

theorem alistRemove_of_get_none {α : Type} (l : List (String × α)) (k : String)
    (h : alistGet l k = none) : alistRemove l k = l := by
  induction l with
  | nil => rfl
  | cons hd tl ih =>
      obtain ⟨a, b⟩ := hd
      simp only [alistGet] at h
      by_cases hak : a = k
      · simp [hak] at h
      · simp only [alistRemove, if_neg hak]
        rw [ih (by simpa [hak] using h)]

theorem alistGet_eq_none_of_not_mem_keys {α : Type} {l : List (String × α)}
    {k : String} (h : k ∉ l.map Prod.fst) : alistGet l k = none := by
  induction l with
  | nil => rfl
  | cons hd tl ih =>
      obtain ⟨a, b⟩ := hd
      simp only [List.map_cons, List.mem_cons] at h
      push_neg at h
      have hne : ¬ a = k := fun hx => h.1 hx.symm
      simp only [alistGet, if_neg hne]
      exact ih h.2

theorem alistGet_append_of_none {α : Type} {l₁ : List (String × α)}
    (l₂ : List (String × α)) {k : String} (h : alistGet l₁ k = none) :
    alistGet (l₁ ++ l₂) k = alistGet l₂ k := by
  induction l₁ with
  | nil => rfl
  | cons hd tl ih =>
      obtain ⟨a, b⟩ := hd
      simp only [alistGet] at h
      by_cases hak : a = k
      · simp [hak] at h
      · simp only [List.cons_append, alistGet, if_neg hak] at *
        exact ih h

theorem alistSet_append_of_none {α : Type} {l : List (String × α)} {k : String}
    (v : α) (h : alistGet l k = none) : alistSet l k v = l ++ [(k, v)] := by
  induction l with
  | nil => rfl
  | cons hd tl ih =>
      obtain ⟨a, b⟩ := hd
      simp only [alistGet] at h
      by_cases hak : a = k
      · simp [hak] at h
      · simp only [alistSet, if_neg hak, List.cons_append]
        rw [ih (by simpa [hak] using h)]

theorem alistGet_filter_of_none {l : Entries} {p : String × Time → Bool}
    {k : String} (h : alistGet l k = none) : alistGet (l.filter p) k = none := by
  induction l with
  | nil => rfl
  | cons hd tl ih =>
      obtain ⟨a, b⟩ := hd
      simp only [alistGet] at h
      by_cases hak : a = k
      · simp [hak] at h
      · have h' := ih (by simpa [hak] using h)
        by_cases hp : p (a, b)
        · simp [List.filter_cons, hp, alistGet, hak, h']
        · simp [List.filter_cons, hp, h']

theorem alistGet_filter {l : Entries} (p : String × Time → Bool) (k : String)
    (hnd : keysNodup l) :
    alistGet (l.filter p) k =
      match alistGet l k with
      | none => none
      | some v => if p (k, v) then some v else none := by
  induction l with
  | nil => rfl
  | cons hd tl ih =>
      obtain ⟨a, b⟩ := hd
      simp only [keysNodup, List.map_cons, List.nodup_cons] at hnd
      have hnd' : keysNodup tl := hnd.2
      by_cases hak : a = k
      · subst hak
        have htl : alistGet tl a = none := alistGet_eq_none_of_not_mem_keys hnd.1
        by_cases hp : p (a, b)
        · simp [List.filter_cons, hp, alistGet]
        · simp [List.filter_cons, hp, alistGet, alistGet_filter_of_none htl]
      · by_cases hp : p (a, b)
        · simp [List.filter_cons, hp, alistGet, hak, ih hnd']
        · simp [List.filter_cons, hp, alistGet, hak, ih hnd']

theorem mergeEntries_eq_append (m : Entries) :
    ∀ (acc : Entries), (∀ kv ∈ m, alistGet acc kv.1 = none) → keysNodup m →
      mergeEntries acc m = acc ++ m := by
  induction m with
  | nil => intro acc _ _; simp [mergeEntries]
  | cons hd tl ih =>
      intro acc hdisj hnd
      obtain ⟨a, b⟩ := hd
      simp only [keysNodup, List.map_cons, List.nodup_cons] at hnd
      have hacc : alistGet acc a = none := hdisj (a, b) (List.mem_cons_self _ _)
      have hdisj' : ∀ kv ∈ tl, alistGet (acc ++ [(a, b)]) kv.1 = none := by
        intro kv hkv
        have h1 : alistGet acc kv.1 = none := hdisj kv (List.mem_cons_of_mem _ hkv)
        have hne : ¬ a = kv.1 := by
          intro hcontra
          apply hnd.1
          rw [hcontra]
          exact List.mem_map_of_mem Prod.fst hkv
        rw [alistGet_append_of_none _ h1]
        simp [alistGet, hne]
      have hstep : mergeEntries acc ((a, b) :: tl) = mergeEntries (acc ++ [(a, b)]) tl := by
        simp only [mergeEntries, List.foldl_cons]
        rw [alistSet_append_of_none b hacc]
      rw [hstep, ih (acc ++ [(a, b)]) hdisj' hnd.2, List.append_assoc]
      rfl

theorem mergeEntries_nil {m : Entries} (hnd : keysNodup m) :
    mergeEntries [] m = m := by
  simpa using mergeEntries_eq_append m [] (fun kv _ => rfl) hnd

/-! ## Characterizations of `saveV2` for a non-root process -/

/-- The file entry written by `osWriteFile` always carries the requested
content (the permission depends on whether the file already existed). -/
theorem content_of_write_entry (c : FileContent) (perm : Nat) (o : Option FileEntry) :
    (match o with
     | some old => ({ content := c, perm := old.perm } : FileEntry)
     | none => ({ content := c, perm := perm } : FileEntry)).content = c := by
  cases o <;> rfl

/-- A successful `saveV2` of a non-root process: `lastCheck` is set to
`now`, the marshalled record is written in place at the status path, and
exactly one write is logged. -/
theorem saveV2_ok (s : Storage) (now : Time) (fs : FS) (f : Faults)
    (hdir : fs.statOf (filepathDir s.filePath) ≠ StatRes.notExist)
    (hw : f.writeOk = true) :
    saveV2 s now false fs f =
      ({ s with status := { s.status with lastCheck := now } },
       { fs with
          files := alistSet fs.files s.filePath
            (match fs.getFile s.filePath with
             | some old =>
                 { content := FileContent.statusJson s.status.readItems now,
                   perm := old.perm }
             | none =>
                 { content := FileContent.statusJson s.status.readItems now,
                   perm := if s.isSystemWide then 438 else 420 }),
          log := fs.log ++ [FsOp.write s.filePath] },
       none) := by
  unfold saveV2 osWriteFile marshalStatus
  simp [hdir, hw]

/-- A `saveV2` whose write fails (non-root process, directory present):
the filesystem is untouched and the error is reported, while the returned
storage still has `lastCheck` updated. -/
theorem saveV2_writeFail (s : Storage) (now : Time) (fs : FS) (f : Faults)
    (hdir : fs.statOf (filepathDir s.filePath) ≠ StatRes.notExist)
    (hw : f.writeOk = false) :
    saveV2 s now false fs f =
      ({ s with status := { s.status with lastCheck := now } }, fs,
       some SaveErr.writeFailed) := by
  unfold saveV2 osWriteFile marshalStatus
  simp [hdir, hw]

/-! ## Claim theorems -/

/-- C3: `GetCacheFile` has no error result by construction; it returns
data exactly when the fingerprint-derived cache file reads back,
deserializes into a cache entry, and the entry's age `now - timestamp` is
at most `maxAge` (an age exactly equal to `maxAge` is still valid); in
every other case — file absent, unparseable, or age strictly greater than
`maxAge` — it returns not-found. -/
theorem C3_getCacheFile_found_iff (s : Storage) (fs : FS) (now : Time)
    (url : String) (maxAge : Duration) (d : List Nat) :
    GetCacheFile s fs now url maxAge = some d ↔
      ∃ c entry, osReadFile fs (getCacheFilePath s url) = Except.ok c ∧
        unmarshalCache c = some entry ∧ now - entry.timestamp ≤ maxAge ∧
        d = entry.data := by
  simp only [GetCacheFile]
  cases hread : osReadFile fs (getCacheFilePath s url) with
  | error e => simp
  | ok c =>
      cases hum : unmarshalCache c with
      | none => simp [hum]
      | some entry =>
          by_cases hage : now - entry.timestamp > maxAge
          · constructor
            · intro h
              simp [hum, hage] at h
            · rintro ⟨c', entry', hc', hum', hle, _⟩
              obtain rfl : c = c' := by injection hc'
              rw [hum] at hum'
              obtain rfl : entry = entry' := by injection hum'
              exact absurd hle (not_le.mpr hage)
          · constructor
            · intro h
              simp [hum, hage] at h
              exact ⟨c, entry, rfl, hum, not_lt.mp hage, h.symm⟩
            · rintro ⟨c', entry', hc', hum', _, rfl⟩
              obtain rfl : c = c' := by injection hc'
              rw [hum] at hum'
              obtain rfl : entry = entry' := by injection hum'
              simp [hum, hage]

/-- C9: on an id absent from the read-items map, `MarkAsUnread` still
performs a full persistence pass: the in-memory map is unchanged,
`lastCheck` becomes the current time in memory, on a successful write the
status file is rewritten with `lastCheck = now` (a single logged write of
the status path), and the operation returns an error exactly when the
write fails (non-root process, status-file directory present). -/
theorem C9_markAsUnread_absent_persists (s : Storage) (m : Entries)
    (itemID : String) (now : Time) (fs : FS) (f : Faults)
    (hitems : s.status.readItems = some m)
    (habsent : alistGet m itemID = none)
    (hdir : fs.statOf (filepathDir s.filePath) ≠ StatRes.notExist) :
    (MarkAsUnread s itemID now false fs f).1.status.readItems = some m ∧
    (MarkAsUnread s itemID now false fs f).1.status.lastCheck = now ∧
    ((MarkAsUnread s itemID now false fs f).2.2 = none ↔ f.writeOk = true) ∧
    (f.writeOk = true →
      (∃ pe, (MarkAsUnread s itemID now false fs f).2.1.getFile s.filePath = some pe ∧
         pe.content = FileContent.statusJson (some m) now) ∧
      (MarkAsUnread s itemID now false fs f).2.1.log = fs.log ++ [FsOp.write s.filePath]) ∧
    (f.writeOk = false →
      (MarkAsUnread s itemID now false fs f).2.1 = fs ∧
      (MarkAsUnread s itemID now false fs f).2.2 = some SaveErr.writeFailed) := by
  have hdel : goMapDelete s.status.readItems itemID = some m := by
    rw [hitems]
    simpa [goMapDelete] using alistRemove_of_get_none m itemID habsent
  simp only [MarkAsUnread]
  cases hw : f.writeOk with
  | false =>
      rw [saveV2_writeFail
        { s with status := { s.status with readItems := goMapDelete s.status.readItems itemID } }
        now fs f hdir hw]
      simp [hdel, hw]
  | true =>
      rw [saveV2_ok
        { s with status := { s.status with readItems := goMapDelete s.status.readItems itemID } }
        now fs f hdir hw]
      simp [hdel, FS.getFile, alistGet_set, content_of_write_entry]

/-- Writing a file never makes another path spring out of existence: a
path that was not `notExist` stays that way. -/
theorem statOf_set_ne_notExist (fs : FS) (p : String) (e : FileEntry)
    (L : List FsOp) (q : String) (h : fs.statOf q ≠ StatRes.notExist) :
    FS.statOf { fs with files := alistSet fs.files p e, log := L } q ≠
      StatRes.notExist := by
  intro hcontra
  apply h
  unfold FS.statOf FS.getFile at hcontra ⊢
  dsimp only at hcontra
  by_cases h1 : fs.statErrors.contains q = true
  · rw [if_pos h1] at hcontra
    cases hcontra
  · rw [if_neg h1] at hcontra ⊢
    rw [alistGet_set] at hcontra
    by_cases hpq : p = q
    · rw [if_pos hpq] at hcontra
      simp at hcontra
    · rw [if_neg hpq] at hcontra
      exact hcontra

/-- C5: when the persistence step fails, `MarkAsRead`, `MarkAsUnread` and
`Cleanup` all propagate the error to the caller while the in-memory map
keeps the mutation (the insertion, deletion, or removals are not rolled
back), so the in-memory and on-disk views diverge (the filesystem is
untouched). -/
theorem C5_failed_save_keeps_mutation (s : Storage) (m : Entries)
    (itemID : String) (now : Time) (maxAge : Duration) (fs : FS) (f : Faults)
    (hitems : s.status.readItems = some m)
    (hdir : fs.statOf (filepathDir s.filePath) ≠ StatRes.notExist)
    (hw : f.writeOk = false) :
    MarkAsRead s itemID now false fs f =
      OpResult.ok
        ({ s with status := { readItems := some (alistSet m itemID now),
                              lastCheck := now } },
         fs, some SaveErr.writeFailed) ∧
    MarkAsUnread s itemID now false fs f =
      ({ s with status := { readItems := some (alistRemove m itemID),
                            lastCheck := now } },
       fs, some SaveErr.writeFailed) ∧
    Cleanup s maxAge now false fs f =
      ({ s with status :=
          { readItems := some (m.filter (fun kv => ! decide (kv.2 < now - maxAge))),
            lastCheck := now } },
       fs, some SaveErr.writeFailed) := by
  refine ⟨?_, ?_, ?_⟩
  · simp only [MarkAsRead, hitems]
    rw [saveV2_writeFail
      { s with status := { s.status with readItems := some (alistSet m itemID now) } }
      now fs f hdir hw]
  · simp only [MarkAsUnread, hitems, goMapDelete]
    rw [saveV2_writeFail
      { s with status := { s.status with readItems := some (alistRemove m itemID) } }
      now fs f hdir hw]
  · simp only [Cleanup, hitems, goMapCleanup]
    rw [saveV2_writeFail
      { s with status := { s.status with
          readItems := some (m.filter (fun kv => ! decide (kv.2 < now - maxAge))) } }
      now fs f hdir hw]

/-- C6: `Cleanup maxAge` removes exactly those entries whose read
timestamp is strictly before `now - maxAge`, keeps every other entry
(one read exactly at the cutoff included) with its original timestamp,
succeeds, and logs exactly one write of the status file for the whole
operation. -/
theorem C6_cleanup_boundary_single_save (s : Storage) (m : Entries)
    (now : Time) (maxAge : Duration) (fs : FS) (f : Faults)
    (hitems : s.status.readItems = some m) (hnd : keysNodup m)
    (hdir : fs.statOf (filepathDir s.filePath) ≠ StatRes.notExist)
    (hw : f.writeOk = true) :
    (Cleanup s maxAge now false fs f).2.2 = none ∧
    (∀ id t, alistGet m id = some t →
       goMapGet (Cleanup s maxAge now false fs f).1.status.readItems id =
         if t < now - maxAge then none else some t) ∧
    (∀ id, alistGet m id = none →
       goMapGet (Cleanup s maxAge now false fs f).1.status.readItems id = none) ∧
    (Cleanup s maxAge now false fs f).2.1.log = fs.log ++ [FsOp.write s.filePath] := by
  simp only [Cleanup, hitems, goMapCleanup]
  rw [saveV2_ok
    { s with status := { s.status with
        readItems := some (m.filter (fun kv => ! decide (kv.2 < now - maxAge))) } }
    now fs f hdir hw]
  refine ⟨rfl, ?_, ?_, rfl⟩
  · intro id t hget
    simp only [goMapGet]
    rw [alistGet_filter (fun kv => ! decide (kv.2 < now - maxAge)) id hnd, hget]
    by_cases hc : t < now - maxAge <;> simp [hc]
  · intro id hget
    simp only [goMapGet]
    exact alistGet_filter_of_none hget

/-- A successful `MarkAsRead` of a non-root process, fully computed. -/
theorem markAsRead_ok (s : Storage) (items : Entries) (itemID : String)
    (now : Time) (fs : FS) (f : Faults)
    (hitems : s.status.readItems = some items)
    (hdir : fs.statOf (filepathDir s.filePath) ≠ StatRes.notExist)
    (hw : f.writeOk = true) :
    MarkAsRead s itemID now false fs f =
      OpResult.ok
        ({ s with status := { readItems := some (alistSet items itemID now),
                              lastCheck := now } },
         { fs with
            files := alistSet fs.files s.filePath
              (match fs.getFile s.filePath with
               | some old =>
                   { content :=
                       FileContent.statusJson (some (alistSet items itemID now)) now,
                     perm := old.perm }
               | none =>
                   { content :=
                       FileContent.statusJson (some (alistSet items itemID now)) now,
                     perm := if s.isSystemWide then 438 else 420 }),
            log := fs.log ++ [FsOp.write s.filePath] },
         none) := by
  simp only [MarkAsRead, hitems]
  rw [saveV2_ok
    { s with status := { s.status with readItems := some (alistSet items itemID now) } }
    now fs f hdir hw]

/-- C8: `MarkAsRead` is idempotent with respect to read status: two calls
in a row both succeed (given successful writes), leave `IsRead` true with
the stored timestamp refreshed to the second call's time, and touch no
other id; and `MarkAsUnread` on an id not marked read leaves the
read-items map unchanged and is not an error. -/
theorem C8_idempotence (s : Storage) (m : Entries) (itemID : String)
    (t₁ t₂ : Time) (fs : FS) (f : Faults)
    (hitems : s.status.readItems = some m)
    (hdir : fs.statOf (filepathDir s.filePath) ≠ StatRes.notExist)
    (hw : f.writeOk = true) :
    ∃ s₁ fs₁, MarkAsRead s itemID t₁ false fs f = OpResult.ok (s₁, fs₁, none) ∧
      ∃ s₂ fs₂, MarkAsRead s₁ itemID t₂ false fs₁ f = OpResult.ok (s₂, fs₂, none) ∧
        IsRead s₂ itemID = true ∧
        GetReadTime s₂ itemID = some t₂ ∧
        (∀ j, ¬ j = itemID →
           goMapGet s₂.status.readItems j = goMapGet s.status.readItems j) ∧
        (∀ j, alistGet m j = none →
           ∃ s' fs', MarkAsUnread s j t₁ false fs f = (s', fs', none) ∧
             s'.status.readItems = some m) := by
  refine ⟨_, _, markAsRead_ok s m itemID t₁ fs f hitems hdir hw, ?_⟩
  refine ⟨_, _,
    markAsRead_ok _ (alistSet m itemID t₁) itemID t₂ _ f rfl
      (statOf_set_ne_notExist fs s.filePath _ _ _ hdir) hw, ?_, ?_, ?_, ?_⟩
  · simp [IsRead, goMapGet, alistGet_set]
  · simp [GetReadTime, goMapGet, alistGet_set]
  · intro j hj
    have hj' : ¬ itemID = j := fun h => hj h.symm
    simp [goMapGet, alistGet_set, hj', hitems]
  · intro j hget
    have hdel : goMapDelete s.status.readItems j = some m := by
      rw [hitems]
      simpa [goMapDelete] using alistRemove_of_get_none m j hget
    simp only [MarkAsUnread]
    rw [saveV2_ok
      { s with status := { s.status with readItems := goMapDelete s.status.readItems j } }
      t₁ fs f hdir hw]
    exact ⟨_, _, rfl, by simp [hdel]⟩

/-- `osReadFile` only depends on the stat errors, directories, and the
file entry at the path read. -/
theorem osReadFile_congr (fs₁ fs₂ : FS) (p : String)
    (hse : fs₁.statErrors = fs₂.statErrors) (hdirs : fs₁.dirs = fs₂.dirs)
    (hgf : fs₁.getFile p = fs₂.getFile p) :
    osReadFile fs₁ p = osReadFile fs₂ p := by
  unfold osReadFile FS.statOf
  rw [hse, hdirs, hgf]

/-- No path equals itself with `".tmp"` appended. -/
theorem self_ne_append_tmp (p : String) : ¬ p = p ++ ".tmp" := by
  intro h
  have hlen := congrArg String.length h
  rw [String.length_append] at hlen
  have h4 : ".tmp".length = 4 := rfl
  omega

/-- C7: round-trip — after a successful save of a store whose read-items
map holds the pairs `m`, constructing a fresh store instance from the
same status file yields a store whose `IsRead` result agrees with the
original store's for every id. -/
theorem C7_roundtrip (s : Storage) (m : Entries) (now t₂ : Time) (fs : FS)
    (f : Faults)
    (hitems : s.status.readItems = some m) (hnd : keysNodup m)
    (hdir : fs.statOf (filepathDir s.filePath) ≠ StatRes.notExist)
    (hse : fs.statErrors.contains s.filePath = false)
    (hw : f.writeOk = true) :
    (saveV2 s now false fs f).2.2 = none ∧
    ∃ s₂, loadStore s.filePath s.cacheDir s.isSystemWide t₂
        (saveV2 s now false fs f).2.1 = Except.ok s₂ ∧
      ∀ id, IsRead s₂ id = IsRead s id := by
  rw [saveV2_ok s now fs f hdir hw]
  refine ⟨rfl, ?_⟩
  have hread : osReadFile
      { fs with
        files := alistSet fs.files s.filePath
          (match fs.getFile s.filePath with
           | some old =>
               { content := FileContent.statusJson s.status.readItems now,
                 perm := old.perm }
           | none =>
               { content := FileContent.statusJson s.status.readItems now,
                 perm := if s.isSystemWide then 438 else 420 }),
        log := fs.log ++ [FsOp.write s.filePath] } s.filePath =
      Except.ok (FileContent.statusJson (some m) now) := by
    have hse' : s.filePath ∉ fs.statErrors := by simpa using hse
    unfold osReadFile FS.statOf FS.getFile
    dsimp only
    simp [alistGet_set, hse, hse', hitems, content_of_write_entry]
  simp only [loadStore, load]
  rw [hread]
  simp only [unmarshalStatusInto]
  refine ⟨_, rfl, ?_⟩
  intro id
  simp [IsRead, goMapGet, mergeEntries_nil hnd, hitems]

/-- C1 counterexample: a save triggered by `MarkAsRead` (second revision,
the revision whose methods the claim cites) writes the record directly to
the status path in place — its operation log is a single direct write of
the target, with no write of the temporary path and no rename at all. -/
theorem C1_counterexample_inPlaceSave :
    MarkAsRead demoStore "item-c" 7 false demoFS noFaults =
      OpResult.ok
        ({ demoStore with status :=
            { readItems := some [("item-a", 1), ("item-b", 5), ("item-c", 7)],
              lastCheck := 7 } },
         { demoFS with
            files := [(systemFilePath,
              { content := FileContent.statusJson
                  (some [("item-a", 1), ("item-b", 5), ("item-c", 7)]) 7,
                perm := 438 })],
            log := [FsOp.write systemFilePath] },
         none) ∧
    FsOp.write (systemFilePath ++ ".tmp") ∉ [FsOp.write systemFilePath] ∧
    FsOp.rename (systemFilePath ++ ".tmp") systemFilePath ∉
      [FsOp.write systemFilePath] := by
  decide

/-- C1 amended: the saves triggered by the public operations (second
revision) serialize the record and write it directly to the status-file
path in place, never touching the temporary path; only the first
revision's save writes to `filePath + ".tmp"` and renames it over the
target, and there a failure injected at the rename leaves the original
status file unchanged and readable while the temporary file is removed
before the error is propagated. -/
theorem C1_amended_save_protocols :
    (∀ (s : Storage) (m : Entries) (itemID : String) (now : Time) (fs : FS)
       (f : Faults),
       s.status.readItems = some m →
       fs.statOf (filepathDir s.filePath) ≠ StatRes.notExist →
       f.writeOk = true →
       ∃ s' fs', MarkAsRead s itemID now false fs f = OpResult.ok (s', fs', none) ∧
         fs'.log = fs.log ++ [FsOp.write s.filePath] ∧
         fs'.getFile (s.filePath ++ ".tmp") = fs.getFile (s.filePath ++ ".tmp")) ∧
    (∀ (s : Storage) (now : Time) (fs : FS) (f : Faults),
       fs.dirs.contains (filepathDir s.filePath) = true →
       f.writeOk = true → f.renameOk = false →
       ∃ s' fs', saveV1 s now fs f = (s', fs', some SaveErr.renameFailed) ∧
         fs'.getFile s.filePath = fs.getFile s.filePath ∧
         fs'.getFile (s.filePath ++ ".tmp") = none ∧
         osReadFile fs' s.filePath = osReadFile fs s.filePath) := by
  constructor
  · intro s m itemID now fs f hitems hdir hw
    refine ⟨_, _, markAsRead_ok s m itemID now fs f hitems hdir hw, rfl, ?_⟩
    simp [FS.getFile, alistGet_set, self_ne_append_tmp s.filePath]
  · intro s now fs f hdirs hw hrn
    have hne : ¬ s.filePath ++ ".tmp" = s.filePath :=
      fun h => self_ne_append_tmp s.filePath h.symm
    simp only [saveV1, osMkdirAll, hdirs, if_true, osWriteFile, hw, osRename, hrn,
      osRemove, marshalStatus]
    refine ⟨_, _, rfl, ?_, ?_, ?_⟩
    · simp [FS.getFile, alistGet_remove, alistGet_set, hne]
    · simp [FS.getFile, alistGet_remove]
    · exact osReadFile_congr _ _ _ rfl rfl
        (by simp [FS.getFile, alistGet_remove, alistGet_set, hne])

/-- A successful `finishNew` hands back the handle fields it was given,
the filesystem it was given, and the output it was given. -/
theorem finishNew_ok_fields (fp cd : String) (b : Bool) (env : Env) (fs : FS)
    (out : List OutEvent) (s : Storage) (fs' : FS) (out' : List OutEvent)
    (h : finishNew fp cd b env fs out = NewResult.ok s fs' out') :
    s.isSystemWide = b ∧ s.filePath = fp ∧ s.cacheDir = cd ∧ fs' = fs ∧
      out' = out := by
  simp only [finishNew, loadStore, load] at h
  cases hr : osReadFile fs fp with
  | error e =>
      rw [hr] at h
      cases e with
      | notExist =>
          simp only [NewResult.ok.injEq] at h
          obtain ⟨rfl, rfl, rfl⟩ := h
          exact ⟨rfl, rfl, rfl, rfl, rfl⟩
      | other => simp at h
  | ok c =>
      rw [hr] at h
      dsimp only at h
      cases hum : unmarshalStatusInto { readItems := some [], lastCheck := env.now } c with
      | none =>
          rw [hum] at h
          simp at h
      | some st =>
          rw [hum] at h
          simp only [NewResult.ok.injEq] at h
          obtain ⟨rfl, rfl, rfl⟩ := h
          exact ⟨rfl, rfl, rfl, rfl, rfl⟩

/-- C2: for a non-privileged process, a successfully constructed store is
system-wide exactly when both independent writability probes on the fixed
system paths succeed; the composite probe is the conjunction of the
status-file probe and the marker-file probe of the cache directory, and
the status-file probe is precisely the existence-first check the spec
describes (absent file: probe the containing directory; existing file:
open for writing without truncation). -/
theorem C2_probe_selection (requireConfirmation : Bool) (env : Env) (fs : FS)
    (f : Faults) (s : Storage) (fs' : FS) (out : List OutEvent)
    (hroot : env.isRoot = false)
    (hok : newWithConfirmation requireConfirmation env fs f = NewResult.ok s fs' out) :
    (s.isSystemWide = true ↔
       canUseSystemStorage fs systemFilePath systemCacheDir = true) ∧
    canUseSystemStorage fs systemFilePath systemCacheDir =
      (canWriteToFile fs systemFilePath && canWriteToDirectory fs systemCacheDir) ∧
    canWriteToFile fs systemFilePath = specStatusFileProbe fs systemFilePath := by
  refine ⟨?_, rfl, ?_⟩
  · unfold newWithConfirmation at hok
    rw [hroot] at hok
    simp only [Bool.false_eq_true, if_false] at hok
    by_cases hcan : canUseSystemStorage fs systemFilePath systemCacheDir = true
    · rw [if_pos hcan] at hok
      have hfields := finishNew_ok_fields _ _ _ _ _ _ _ _ _ hok
      simp [hfields.1, hcan]
    · rw [if_neg hcan] at hok
      have huser : ∀ (fp cd : String) (fs₀ : FS) (out₀ : List OutEvent),
          finishNew fp cd false env fs₀ out₀ = NewResult.ok s fs' out →
          (s.isSystemWide = true ↔
             canUseSystemStorage fs systemFilePath systemCacheDir = true) := by
        intro fp cd fs₀ out₀ hfin
        have hfields := finishNew_ok_fields _ _ _ _ _ _ _ _ _ hfin
        rw [hfields.1]
        simp [hcan]
      by_cases hrc : requireConfirmation = true
      · rw [if_pos hrc] at hok
        by_cases hcf : confirmFallback env.stdinLine = true
        · rw [if_pos hcf] at hok
          cases hup : getUserStoragePaths env fs f with
          | error e =>
              rw [hup] at hok
              simp at hok
          | ok tup =>
              obtain ⟨fp, cd, fs₁⟩ := tup
              rw [hup] at hok
              exact huser fp cd fs₁ _ hok
        · rw [if_neg hcf] at hok
          simp at hok
      · rw [if_neg hrc] at hok
        cases hup : getUserStoragePaths env fs f with
        | error e =>
            rw [hup] at hok
            simp at hok
        | ok tup =>
            obtain ⟨fp, cd, fs₁⟩ := tup
            rw [hup] at hok
            exact huser fp cd fs₁ _ hok
  · unfold canWriteToFile specStatusFileProbe
    cases hst : fs.statOf systemFilePath <;> simp [hst]

/-- Adding a directory other than `q` never makes `q` spring into
existence. -/
theorem statOf_cons_dir (fs : FS) (d : String) (dps : List (String × Nat))
    (L : List FsOp) (q : String)
    (hne : ¬ q = d) (h : fs.statOf q = StatRes.notExist) :
    FS.statOf { fs with dirs := d :: fs.dirs, dirPerms := dps, log := L } q =
      StatRes.notExist := by
  unfold FS.statOf FS.getFile at h ⊢
  dsimp only
  by_cases h1 : fs.statErrors.contains q = true
  · rw [if_pos h1] at h
    cases h
  · rw [if_neg h1] at h ⊢
    by_cases h2 : (alistGet fs.files q).isSome = true
    · rw [if_pos h2] at h
      cases h
    · rw [if_neg h2] at h ⊢
      by_cases h3 : fs.dirs.contains q = true
      · rw [if_pos h3] at h
        cases h
      · have h4 : ¬ ((d :: fs.dirs).contains q = true) := by
          simp only [List.contains_cons, Bool.or_eq_true, beq_iff_eq]
          push_neg
          exact ⟨hne, h3⟩
        rw [if_neg h4]

/-- A path whose stat reports not-exist reads back as the not-exist
error. -/
theorem osReadFile_notExist (fs : FS) (p : String)
    (h : fs.statOf p = StatRes.notExist) :
    osReadFile fs p = Except.error ReadErr.notExist := by
  unfold osReadFile
  rw [h]

/-- The two per-user paths differ. -/
theorem userFile_ne_userCache (cp : String) :
    ¬ filepathJoin cp ".informant_read_status.json" =
        filepathJoin cp ".informant_cache" := by
  intro h
  have hlen := congrArg String.length h
  simp only [filepathJoin, String.length_append] at hlen
  have h1 : ".informant_read_status.json".length = 27 := rfl
  have h2 : ".informant_cache".length = 16 := rfl
  omega

/-- C4: when the system-path probes fail for a non-privileged process:
interactively, the warning and the prompt are emitted and a decline fails
initialization with the user-declined error, leaving the filesystem
untouched (no per-user file or directory is created); non-interactively,
the same warning is emitted, no prompt, and initialization proceeds with
the per-user paths. -/
theorem C4_fallback_gating (env : Env) (fs : FS) (f : Faults) (cp : String)
    (hroot : env.isRoot = false)
    (hprobe : canUseSystemStorage fs systemFilePath systemCacheDir = false)
    (hdecline : confirmFallback env.stdinLine = false)
    (hcp : getConfigPath env fs = Except.ok cp)
    (hmk : f.mkdirOk = true)
    (hnof : fs.statOf (filepathJoin cp ".informant_read_status.json") =
      StatRes.notExist) :
    newWithConfirmation true env fs f =
      NewResult.err InitErr.userDeclined fs
        [OutEvent.fallbackWarning, OutEvent.confirmPrompt] ∧
    ∃ fs₁, newWithConfirmation false env fs f =
      NewResult.ok
        { filePath := filepathJoin cp ".informant_read_status.json",
          cacheDir := filepathJoin cp ".informant_cache",
          isSystemWide := false,
          status := { readItems := some [], lastCheck := env.now } }
        fs₁ [OutEvent.fallbackWarning] := by
  constructor
  · unfold newWithConfirmation
    rw [hroot]
    simp [hprobe, hdecline]
  · unfold newWithConfirmation
    rw [hroot]
    simp only [Bool.false_eq_true, if_false, hprobe]
    simp only [getUserStoragePaths, hcp]
    cases hdc : fs.dirs.contains (filepathJoin cp ".informant_cache") with
    | true =>
        simp only [osMkdirAll, hdc, if_true]
        simp only [finishNew, loadStore, load]
        rw [osReadFile_notExist fs _ hnof]
        exact ⟨fs, rfl⟩
    | false =>
        simp only [osMkdirAll, hdc, hmk, Bool.false_eq_true, if_false, if_true]
        simp only [finishNew, loadStore, load]
        rw [osReadFile_notExist _ _
          (statOf_cons_dir fs _ _ _ _ (userFile_ne_userCache cp) hnof)]
        exact ⟨_, rfl⟩

/-- C10 (code bug): loading a status file whose `read_items` field is
JSON `null` leaves the in-memory read-items map nil, and the next
`MarkAsRead` is an assignment into a nil Go map — a runtime panic — so
construction does not guarantee a usable non-nil map. -/
theorem C10_null_readItems_panics :
    loadStore "/home/u/.informant_read_status.json" "/home/u/.informant_cache"
        false 0 nullStatusFS = Except.ok nullLoadedStore ∧
    nullLoadedStore.status.readItems = none ∧
    MarkAsRead nullLoadedStore "item-a" 1 false nullStatusFS noFaults =
      OpResult.panicNilMap := by
  exact ⟨rfl, rfl, rfl⟩

/-! ## Witnesses: the claim theorems applied at concrete inputs -/

theorem C1_amended_save_protocols_witness :
    (∃ s' fs', MarkAsRead userStore "item-c" 9 false userFS noFaults =
        OpResult.ok (s', fs', none) ∧
       fs'.log = userFS.log ++ [FsOp.write userStore.filePath] ∧
       fs'.getFile (userStore.filePath ++ ".tmp") =
         userFS.getFile (userStore.filePath ++ ".tmp")) ∧
    (∃ s' fs', saveV1 demoStore 9 demoFS renameFault =
        (s', fs', some SaveErr.renameFailed) ∧
       fs'.getFile demoStore.filePath = demoFS.getFile demoStore.filePath ∧
       fs'.getFile (demoStore.filePath ++ ".tmp") = none ∧
       osReadFile fs' demoStore.filePath = osReadFile demoFS demoStore.filePath) :=
  ⟨C1_amended_save_protocols.1 userStore [("item-a", 1), ("item-b", 5)] "item-c" 9 userFS
     noFaults rfl (by decide) rfl,
   C1_amended_save_protocols.2 demoStore 9 demoFS renameFault (by decide) rfl rfl⟩

theorem C2_probe_selection_witness :
    (freshUserStore.isSystemWide = true ↔
       canUseSystemStorage userFS systemFilePath systemCacheDir = true) ∧
    canUseSystemStorage userFS systemFilePath systemCacheDir =
      (canWriteToFile userFS systemFilePath && canWriteToDirectory userFS systemCacheDir) ∧
    canWriteToFile userFS systemFilePath = specStatusFileProbe userFS systemFilePath :=
  C2_probe_selection false demoEnv userFS noFaults freshUserStore userFS
    [OutEvent.fallbackWarning] rfl rfl

theorem C4_fallback_gating_witness :
    newWithConfirmation true demoEnv userFS noFaults =
      NewResult.err InitErr.userDeclined userFS
        [OutEvent.fallbackWarning, OutEvent.confirmPrompt] ∧
    ∃ fs₁, newWithConfirmation false demoEnv userFS noFaults =
      NewResult.ok
        { filePath := filepathJoin "/home/u" ".informant_read_status.json",
          cacheDir := filepathJoin "/home/u" ".informant_cache",
          isSystemWide := false,
          status := { readItems := some [], lastCheck := demoEnv.now } }
        fs₁ [OutEvent.fallbackWarning] :=
  C4_fallback_gating demoEnv userFS noFaults "/home/u" rfl rfl rfl rfl rfl (by decide)

theorem C5_failed_save_keeps_mutation_witness :
    MarkAsRead userStore "item-a" 9 false userFS writeFault =
      OpResult.ok
        ({ userStore with status :=
            { readItems := some (alistSet [("item-a", 1), ("item-b", 5)] "item-a" 9),
              lastCheck := 9 } },
         userFS, some SaveErr.writeFailed) ∧
    MarkAsUnread userStore "item-a" 9 false userFS writeFault =
      ({ userStore with status :=
          { readItems := some (alistRemove [("item-a", 1), ("item-b", 5)] "item-a"),
            lastCheck := 9 } },
       userFS, some SaveErr.writeFailed) ∧
    Cleanup userStore 3 9 false userFS writeFault =
      ({ userStore with status :=
          { readItems := some (([("item-a", 1), ("item-b", 5)] : Entries).filter
              (fun kv => ! decide (kv.2 < 9 - 3))),
            lastCheck := 9 } },
       userFS, some SaveErr.writeFailed) :=
  C5_failed_save_keeps_mutation userStore [("item-a", 1), ("item-b", 5)] "item-a" 9 3
    userFS writeFault rfl (by decide) rfl

theorem C6_cleanup_boundary_single_save_witness :
    (Cleanup cleanupStore 7 10 false userFS noFaults).2.2 = none ∧
    (∀ id t, alistGet ([("old", 0), ("edge", 3), ("new", 9)] : Entries) id = some t →
       goMapGet (Cleanup cleanupStore 7 10 false userFS noFaults).1.status.readItems id =
         if t < 10 - 7 then none else some t) ∧
    (∀ id, alistGet ([("old", 0), ("edge", 3), ("new", 9)] : Entries) id = none →
       goMapGet (Cleanup cleanupStore 7 10 false userFS noFaults).1.status.readItems id =
         none) ∧
    (Cleanup cleanupStore 7 10 false userFS noFaults).2.1.log =
      userFS.log ++ [FsOp.write cleanupStore.filePath] :=
  C6_cleanup_boundary_single_save cleanupStore [("old", 0), ("edge", 3), ("new", 9)] 10 7
    userFS noFaults rfl (by decide) (by decide) rfl

theorem C7_roundtrip_witness :
    (saveV2 userStore 9 false userFS noFaults).2.2 = none ∧
    ∃ s₂, loadStore userStore.filePath userStore.cacheDir userStore.isSystemWide 20
        (saveV2 userStore 9 false userFS noFaults).2.1 = Except.ok s₂ ∧
      ∀ id, IsRead s₂ id = IsRead userStore id :=
  C7_roundtrip userStore [("item-a", 1), ("item-b", 5)] 9 20 userFS noFaults rfl
    (by decide) (by decide) rfl rfl

theorem C8_idempotence_witness :
    ∃ s₁ fs₁, MarkAsRead userStore "item-a" 9 false userFS noFaults =
        OpResult.ok (s₁, fs₁, none) ∧
      ∃ s₂ fs₂, MarkAsRead s₁ "item-a" 11 false fs₁ noFaults = OpResult.ok (s₂, fs₂, none) ∧
        IsRead s₂ "item-a" = true ∧
        GetReadTime s₂ "item-a" = some 11 ∧
        (∀ j, ¬ j = "item-a" →
           goMapGet s₂.status.readItems j = goMapGet userStore.status.readItems j) ∧
        (∀ j, alistGet ([("item-a", 1), ("item-b", 5)] : Entries) j = none →
           ∃ s' fs', MarkAsUnread userStore j 9 false userFS noFaults = (s', fs', none) ∧
             s'.status.readItems = some [("item-a", 1), ("item-b", 5)]) :=
  C8_idempotence userStore [("item-a", 1), ("item-b", 5)] "item-a" 9 11 userFS noFaults rfl
    (by decide) rfl

theorem C9_markAsUnread_absent_persists_witness :
    (MarkAsUnread userStore "ghost" 9 false userFS noFaults).1.status.readItems =
      some [("item-a", 1), ("item-b", 5)] ∧
    (MarkAsUnread userStore "ghost" 9 false userFS noFaults).1.status.lastCheck = 9 ∧
    ((MarkAsUnread userStore "ghost" 9 false userFS noFaults).2.2 = none ↔
      noFaults.writeOk = true) ∧
    (noFaults.writeOk = true →
      (∃ pe, (MarkAsUnread userStore "ghost" 9 false userFS noFaults).2.1.getFile
          userStore.filePath = some pe ∧
         pe.content = FileContent.statusJson (some [("item-a", 1), ("item-b", 5)]) 9) ∧
      (MarkAsUnread userStore "ghost" 9 false userFS noFaults).2.1.log =
        userFS.log ++ [FsOp.write userStore.filePath]) ∧
    (noFaults.writeOk = false →
      (MarkAsUnread userStore "ghost" 9 false userFS noFaults).2.1 = userFS ∧
      (MarkAsUnread userStore "ghost" 9 false userFS noFaults).2.2 =
        some SaveErr.writeFailed) :=
  C9_markAsUnread_absent_persists userStore [("item-a", 1), ("item-b", 5)] "ghost" 9 userFS
    noFaults rfl rfl (by decide)

end Informant
